import Mathlib

/-!
Verification development for the DirectX11_Starter demo
(QRayarch/GameGraphicsProgramming).

Shallow embedding of:
  * `Component.cpp` (`Component::SetEntiy`, the empty lifecycle stubs);
  * `Transform` (declared in `Transform.h`; its implementation file is not
    in the sources, so the setter/recompute bodies are modelled from the
    spec, as marked on each definition);
  * `MyDemoGame::TestLoadLevel` in `MyDemoGame.cpp`: the line loop over the
    level file, the `strstr`-based directive checks, the `sscanf_s`
    numeric scans, and the entity/mesh creation in the `model` branch.

Lines of the level file are represented as `List Char`; a C float value is
represented opaquely by the exact character sequence the `%f` conversion
consumed, and an uninitialized float field by `none`.  A loop iteration
returns an `Option` state: `none` is the uncaught `std::out_of_range`
thrown by the `substr` call of the `model` branch on a too-short line,
which terminates the program, so it aborts the rest of the run.
-/

namespace GGP

/-! ### C string primitives used by the loader -/

/-- `needle` occurs at the start of `hay` (character-by-character literal
match, as the literal part of a `scanf` format or the inner loop of
`strstr`). -/
def litPref : List Char → List Char → Bool
  | [], _ => true
  | _ :: _, [] => false
  | a :: as, b :: bs => a = b && litPref as bs

/-- `strstr(hay, needle) != nullptr`: `needle` occurs somewhere in `hay`. -/
def strstrB (hay needle : List Char) : Bool :=
  if litPref needle hay then true
  else
    match hay with
    | [] => false
    | _ :: t => strstrB t needle

/-- Whitespace for `scanf` (the C `isspace` set). -/
def isWsC (c : Char) : Bool :=
  c = ' ' || c = '\t' || c = '\n' || c = '\x0b' || c = '\x0c' || c = '\r'

/-- Drop leading `isspace` characters, as a whitespace directive in a
`scanf` format does. -/
def dropWs : List Char → List Char
  | [] => []
  | c :: t => if isWsC c then dropWs t else c :: t

/-- Longest run of leading decimal digits, and the rest. -/
def takeDigits : List Char → List Char × List Char
  | [] => ([], [])
  | c :: t =>
    if c.isDigit then
      let (d, r) := takeDigits t
      (c :: d, r)
    else ([], c :: t)

/-- One `%f` conversion of `sscanf_s`: skip leading whitespace, then accept
an optional sign, a decimal mantissa (digits, optionally with a decimal
point), and an optional exponent.  Returns the consumed characters (the
value the conversion stores, kept opaque as its text) and the rest of the
input; `none` on a matching failure, which in C leaves the target float
uninitialized and stops the scan.  The hexadecimal, infinity and NaN forms
of `strtof` are not modelled; no claim exercises them. -/
def scanF (l0 : List Char) : Option (List Char × List Char) :=
  let l := dropWs l0
  let (sgn, l1) :=
    match l with
    | c :: t => if c = '+' || c = '-' then ([c], t) else (([] : List Char), l)
    | [] => ([], l)
  let (d1, l2) := takeDigits l1
  let (dotPart, l3) :=
    match l2 with
    | '.' :: t =>
      let (d2, r) := takeDigits t
      ('.' :: d2, r)
    | _ => (([] : List Char), l2)
  if d1 = [] && (dotPart = [] || dotPart = ['.']) then none
  else
    let mant := sgn ++ d1 ++ dotPart
    match l3 with
    | e :: t =>
      if e = 'e' || e = 'E' then
        let (es, t1) :=
          match t with
          | c :: t2 => if c = '+' || c = '-' then ([c], t2) else (([] : List Char), t)
          | [] => ([], t)
        let (ed, t2) := takeDigits t1
        if ed = [] then some (mant, e :: t) else some (mant ++ [e] ++ es ++ ed, t2)
      else some (mant, e :: t)
    | [] => some (mant, [])

/-- A C float variable: `some v` holds the text consumed by a successful
`%f` conversion, `none` is an uninitialized (garbage) value. -/
abbrev CFloat := Option (List Char)

/-- `DirectX::XMFLOAT3`, with each field a `CFloat`. -/
structure F3 where
  x : CFloat
  y : CFloat
  z : CFloat
deriving DecidableEq, Repr

/-- `sscanf_s(chars, "<kw> %f %f %f", &v.x, &v.y, &v.z)` applied to a local
`XMFLOAT3` that starts uninitialized: the literal `kw` must match at the
start of the line; each later field is assigned only if every earlier
conversion succeeded, exactly as `sscanf` stops at the first matching
failure. -/
def scanfKw3 (kw l : List Char) : F3 :=
  if litPref kw l then
    match scanF (l.drop kw.length) with
    | none => ⟨none, none, none⟩
    | some (v1, r1) =>
      match scanF r1 with
      | none => ⟨some v1, none, none⟩
      | some (v2, r2) =>
        match scanF r2 with
        | none => ⟨some v1, some v2, none⟩
        | some (v3, _) => ⟨some v1, some v2, some v3⟩
  else ⟨none, none, none⟩

def kwArena : List Char := "arena".data
def kwPos : List Char := "pos".data
def kwRot : List Char := "rot".data
def kwScl : List Char := "scl".data
def kwModel : List Char := "model".data

/-! ### Component (from Component.cpp / Component.h) -/

/-- `Component::UNINDEXED`.  Modelled from the spec: `Component.h` is not in
the sources; the constant is some sentinel index, its value is irrelevant
to every claim. -/
def UNINDEXED : Int := -1

/-- The state of a `Component`: the non-owning `parrentEntity` back
pointer (`none` is `nullptr`; a `some` holds an abstract entity identity)
and the bookkeeping `index`. -/
structure Component where
  parrentEntity : Option Nat
  index : Int
deriving DecidableEq, Repr

/-- The `Component::Component()` constructor. -/
def Component.init : Component := ⟨none, UNINDEXED⟩

/-- `Component::SetEntiy`: returns early if `parrentEntity` is already
non-null, otherwise stores the argument. -/
def Component.setEntiy (c : Component) (newParrentEntity : Option Nat) : Component :=
  if c.parrentEntity ≠ none then c
  else { c with parrentEntity := newParrentEntity }

/-- `Component::Added()`: an empty body, so the identity on the component
state. -/
def Component.added (c : Component) : Component := c

/-- `Component::Removed()`: an empty body. -/
def Component.removed (c : Component) : Component := c

/-- `Component::Update()`: an empty body. -/
def Component.update (c : Component) : Component := c

/-! ### Transform

`Transform.h` declares the class; `Transform.cpp` is not in the sources,
so the bodies below are modelled from the spec.  The world matrix is kept
symbolically as the list of local (position, rotation, scale) triples along
the parent chain, root first: only identity of recomputed values matters to
the claims, never matrix arithmetic. -/

/-- Symbolic world matrix: the chain of local TRS triples it was built
from, root first. -/
abbrev WorldMat := List (F3 × F3 × F3)

mutual
/-- The `Transform` state from `Transform.h`: parent pointer, dirty flag,
position/rotation/scale and the cached world matrix. -/
inductive Transform : Type where
  | mk (parrent : PTransform) (isDirty : Bool)
       (position rotation scale : F3) (worldMatrix : WorldMat) : Transform

/-- A possibly-null `Transform*`. -/
inductive PTransform : Type where
  | null : PTransform
  | ref (t : Transform) : PTransform
end

namespace Transform

def parrent : Transform → PTransform
  | .mk p _ _ _ _ _ => p

def isDirty : Transform → Bool
  | .mk _ d _ _ _ _ => d

def position : Transform → F3
  | .mk _ _ pos _ _ _ => pos

def rotation : Transform → F3
  | .mk _ _ _ rot _ _ => rot

def scale : Transform → F3
  | .mk _ _ _ _ scl _ => scl

def worldMatrix : Transform → WorldMat
  | .mk _ _ _ _ _ w => w

/-- Modelled from the spec: the default `Transform()` constructor; the
initial field values are irrelevant to every claim, only that the matrix
cache starts dirty. -/
def init : Transform := .mk .null true ⟨none, none, none⟩ ⟨none, none, none⟩ ⟨none, none, none⟩ []

/-- Modelled from the spec: `Transform::SetPosition` stores the new
position and raises the dirty flag ("a cached world matrix invalidated by
a boolean dirty flag on any setter"). -/
def setPosition : Transform → F3 → Transform
  | .mk p _ _ rot scl w, v => .mk p true v rot scl w

/-- Modelled from the spec: `Transform::SetRotation`. -/
def setRotation : Transform → F3 → Transform
  | .mk p _ pos _ scl w, v => .mk p true pos v scl w

/-- Modelled from the spec: `Transform::SetScale`. -/
def setScale : Transform → F3 → Transform
  | .mk p _ pos rot _ w, v => .mk p true pos rot v w

/-- Modelled from the spec: `Transform::SetParrent`. -/
def setParrent : Transform → PTransform → Transform
  | .mk _ _ pos rot scl w, p => .mk p true pos rot scl w

end Transform

mutual
/-- Modelled from the spec: `Transform::RecalculateWorldMatrix` (also the
body of `GetWorldMatrix`): when the flag is clean the cached matrix is
returned and nothing is touched; when dirty the parent chain is queried,
the local triple appended, the cache refreshed and the flag cleared.
Returns the matrix together with the post-query state. -/
def Transform.recalcWM : Transform → WorldMat × Transform
  | .mk p d pos rot scl w =>
    if d then
      let (pw, p2) := PTransform.queryWM p
      let wm := pw ++ [(pos, rot, scl)]
      (wm, .mk p2 false pos rot scl wm)
    else (w, .mk p d pos rot scl w)

/-- Query the world matrix through a possibly-null parent pointer: a null
parent contributes the identity (empty chain). -/
def PTransform.queryWM : PTransform → WorldMat × PTransform
  | .null => ([], .null)
  | .ref t =>
    let (w, t2) := Transform.recalcWM t
    (w, .ref t2)
end

mutual
/-- Number of parent-chain links the query walks: zero when the flag is
clean (the cache answers), one step plus the parent cost when dirty. -/
def Transform.recalcVisits : Transform → Nat
  | .mk p d _ _ _ _ => if d then PTransform.visitCost p else 0

def PTransform.visitCost : PTransform → Nat
  | .null => 0
  | .ref t => 1 + Transform.recalcVisits t
end

mutual
/-- Length of the parent chain above a transform. -/
def Transform.chainLen : Transform → Nat
  | .mk p _ _ _ _ _ => PTransform.chainCost p

def PTransform.chainCost : PTransform → Nat
  | .null => 0
  | .ref t => 1 + Transform.chainLen t
end

/-! ### Entities and the level loader (MyDemoGame::TestLoadLevel) -/

/-- A component as attached by the loader.  Modelled from the spec:
`Entity.h`/`DrawnMesh.h` are not in the sources; the loader only ever
attaches a drawable-mesh component, recorded here by the index of its mesh
in the mesh list (the `render` and `basicMaterial` arguments are fixed
glue and carry no state the claims mention). -/
inductive EComp : Type where
  | drawnMesh (meshIdx : Nat) : EComp
deriving DecidableEq, Repr

/-- An entity as the loader sees it.  Modelled from the spec: "an entity
owns an ordered collection of components"; `GetTransform` exposes the
transform the directive setters act on. -/
structure Entity where
  transform : Transform
  components : List EComp

/-- `new Entity()` followed by `AddComponent(new DrawnMesh(...))`, as in
the `model` branch of the loader. -/
def Entity.freshWithMesh (meshIdx : Nat) : Entity :=
  ⟨Transform.init, [EComp.drawnMesh meshIdx]⟩

/-- The local state of `TestLoadLevel`: the game member vectors `ents` and
`meshes` (a mesh is recorded by the model path passed to its constructor),
the `int state`, and `currentEntity` as an index into `ents` (`none` is
`nullptr`; C++ holds a pointer to the same object the vector holds, so the
model addresses the entity through its index). -/
structure LoaderState where
  ents : List Entity
  meshes : List (List Char)
  state : Nat
  current : Option Nat

/-- Apply `f` to the transform of the entity at index `i` (the effect of
`currentEntity->GetTransform().Set...`; the index is always in range when
it comes from the loader). -/
def setTransformAt (es : List Entity) (i : Nat) (f : Transform → Transform) : List Entity :=
  match es.get? i with
  | some e => es.set i { e with transform := f e.transform }
  | none => es

/-- The model path built in the `model` branch when the `substr` call
succeeds: `"Assets/Models/" + line.substr(6, line.length()) + ".obj"`. -/
def mkModelPath (l : List Char) : List Char :=
  "Assets/Models/".data ++ l.drop 6 ++ ".obj".data

/-- The `model` branch's path computation including its failure mode:
`std::string::substr(6, line.length())` throws `std::out_of_range` when
`6 > line.length()` (only possible here for the bare 5-character line
consisting of the keyword), and the exception is caught nowhere, so the
program terminates; `none` models that throw.  When the line has at least
6 characters, `substr` agrees with `List.drop 6`. -/
def modelPath (l : List Char) : Option (List Char) :=
  if 6 ≤ l.length then some (mkModelPath l) else none

/-- One iteration of the `while (s.good())` loop of `TestLoadLevel` on the
line just read: the `strstr` cascade over `arena`/`pos`/`rot`/`scl`, then
(`statelessRead` still false) the `switch (state)` whose only live case
is 4 with its `strstr(chars, "model")` check.  The result is `none` when
the iteration throws (the `substr` failure in the `model` branch), which
uncaught ends the program. -/
def processLine (st : LoaderState) (l : List Char) : Option LoaderState :=
  if strstrB l kwArena then some { st with state := 4 }
  else if strstrB l kwPos then
    some (match st.current with
      | some i =>
        { st with ents := setTransformAt st.ents i (fun t => t.setPosition (scanfKw3 kwPos l)) }
      | none => st)
  else if strstrB l kwRot then
    some (match st.current with
      | some i =>
        { st with ents := setTransformAt st.ents i (fun t => t.setRotation (scanfKw3 kwRot l)) }
      | none => st)
  else if strstrB l kwScl then
    some (match st.current with
      | some i =>
        { st with ents := setTransformAt st.ents i (fun t => t.setScale (scanfKw3 kwScl l)) }
      | none => st)
  else if st.state = 4 then
    if strstrB l kwModel then
      match modelPath l with
      | some mp =>
        some { st with
          ents := st.ents ++ [Entity.freshWithMesh st.meshes.length],
          meshes := st.meshes ++ [mp],
          current := some st.ents.length }
      | none => none
    else some st
  else some st

/-- The whole line loop: the lines of the stream processed in order, an
uncaught throw (`none`) aborting the rest of the run.  (The final failed
`getline` at end of stream yields an empty line, which matches no
directive and is a no-op, so it is dropped from the model; lines are
assumed shorter than the 400-char read buffer.) -/
def runLines (st : LoaderState) : List (List Char) → Option LoaderState
  | [] => some st
  | l :: t =>
    match processLine st l with
    | some st2 => runLines st2 t
    | none => none

/-- `TestLoadLevel`: a `none` file argument is a file that failed to open
(`!s.is_open()`), in which case the function returns at once; otherwise
the lines are processed starting from `state = 0`,
`currentEntity = nullptr` and the member vectors as they were.  The result
is the pair of member vectors after the call; a `none` result is the
program terminating on the uncaught throw, so that the call never
returns. -/
def testLoadLevel (file : Option (List (List Char))) (ents0 : List Entity)
    (meshes0 : List (List Char)) : Option (List Entity × List (List Char)) :=
  match file with
  | none => some (ents0, meshes0)
  | some ls => (runLines ⟨ents0, meshes0, 0, none⟩ ls).map (fun st => (st.ents, st.meshes))

/-- First whitespace-separated token of a line.  This definition follows
the words of the spec ("whitespace-tokenized ... directives", claim C6),
not the code, and exists to be compared with the `strstr`-based
recognition the code performs. -/
def specFirstToken (l : List Char) : List Char :=
  ((dropWs l).takeWhile (fun c => !isWsC c))

/-! ### Helper lemmas -/

theorem Transform.position_setPosition (t : Transform) (v : F3) :
    (t.setPosition v).position = v := by
  cases t; rfl

theorem Transform.isDirty_setPosition (t : Transform) (v : F3) :
    (t.setPosition v).isDirty = true := by
  cases t; rfl

theorem Transform.rotation_setRotation (t : Transform) (v : F3) :
    (t.setRotation v).rotation = v := by
  cases t; rfl

theorem Transform.isDirty_setRotation (t : Transform) (v : F3) :
    (t.setRotation v).isDirty = true := by
  cases t; rfl

theorem Transform.scale_setScale (t : Transform) (v : F3) :
    (t.setScale v).scale = v := by
  cases t; rfl

theorem Transform.isDirty_setScale (t : Transform) (v : F3) :
    (t.setScale v).isDirty = true := by
  cases t; rfl

theorem Transform.isDirty_setParrent (t : Transform) (p : PTransform) :
    (t.setParrent p).isDirty = true := by
  cases t; rfl

theorem setTransformAt_length (es : List Entity) (i : Nat) (f : Transform → Transform) :
    (setTransformAt es i f).length = es.length := by
  unfold setTransformAt
  cases h : es.get? i with
  | none => rfl
  | some e => simp [List.length_set]

theorem setTransformAt_get (es : List Entity) (i : Nat) (f : Transform → Transform) :
    (setTransformAt es i f).get? i
      = (es.get? i).map (fun e => { e with transform := f e.transform }) := by
  unfold setTransformAt
  cases h : es.get? i with
  | none =>
    simp only [h, Option.map_none']
  | some e =>
    simp only [h, Option.map_some']
    rw [List.get?_eq_getElem?, List.getElem?_set_self']
    rw [← List.get?_eq_getElem?, h]
    rfl

theorem modelPath_eq_some (l : List Char) (h : 6 ≤ l.length) :
    modelPath l = some (mkModelPath l) := by
  simp [modelPath, h]

theorem modelPath_eq_none (l : List Char) (h : l.length < 6) :
    modelPath l = none := by
  simp only [modelPath, ite_eq_right_iff]
  intro h2
  omega

/-- Branch equation: a line containing `arena` only switches the state. -/
theorem processLine_arena_eq (st : LoaderState) (l : List Char)
    (ha : strstrB l kwArena = true) :
    processLine st l = some { st with state := 4 } := by
  unfold processLine
  simp [ha]

/-- Branch equation: the `pos` branch. -/
theorem processLine_pos_eq (st : LoaderState) (l : List Char)
    (ha : strstrB l kwArena = false) (hp : strstrB l kwPos = true) :
    processLine st l = some (match st.current with
      | some i =>
        { st with ents := setTransformAt st.ents i (fun t => t.setPosition (scanfKw3 kwPos l)) }
      | none => st) := by
  unfold processLine
  simp [ha, hp]

/-- Branch equation: the `rot` branch. -/
theorem processLine_rot_eq (st : LoaderState) (l : List Char)
    (ha : strstrB l kwArena = false) (hp : strstrB l kwPos = false)
    (hr : strstrB l kwRot = true) :
    processLine st l = some (match st.current with
      | some i =>
        { st with ents := setTransformAt st.ents i (fun t => t.setRotation (scanfKw3 kwRot l)) }
      | none => st) := by
  unfold processLine
  simp [ha, hp, hr]

/-- Branch equation: the `scl` branch. -/
theorem processLine_scl_eq (st : LoaderState) (l : List Char)
    (ha : strstrB l kwArena = false) (hp : strstrB l kwPos = false)
    (hr : strstrB l kwRot = false) (hs : strstrB l kwScl = true) :
    processLine st l = some (match st.current with
      | some i =>
        { st with ents := setTransformAt st.ents i (fun t => t.setScale (scanfKw3 kwScl l)) }
      | none => st) := by
  unfold processLine
  simp [ha, hp, hr, hs]

/-- Branch equation: the `model` branch on a line long enough for the
`substr` call to succeed. -/
theorem processLine_model_eq (st : LoaderState) (l : List Char)
    (ha : strstrB l kwArena = false) (hp : strstrB l kwPos = false)
    (hr : strstrB l kwRot = false) (hs : strstrB l kwScl = false)
    (h4 : st.state = 4) (hm : strstrB l kwModel = true) (hlen : 6 ≤ l.length) :
    processLine st l = some { st with
      ents := st.ents ++ [Entity.freshWithMesh st.meshes.length],
      meshes := st.meshes ++ [mkModelPath l],
      current := some st.ents.length } := by
  unfold processLine
  simp [ha, hp, hr, hs, h4, hm, modelPath_eq_some l hlen]

/-- Branch equation: the `model` branch on a line too short for the
`substr` call, which throws `std::out_of_range` and ends the program. -/
theorem processLine_model_throw (st : LoaderState) (l : List Char)
    (ha : strstrB l kwArena = false) (hp : strstrB l kwPos = false)
    (hr : strstrB l kwRot = false) (hs : strstrB l kwScl = false)
    (h4 : st.state = 4) (hm : strstrB l kwModel = true) (hshort : l.length < 6) :
    processLine st l = none := by
  unfold processLine
  simp [ha, hp, hr, hs, h4, hm, modelPath_eq_none l hshort]

/-- Branch equation: a line taking no branch (no keyword matched, or
`model` matched outside state 4) leaves the state untouched. -/
theorem processLine_skip_eq (st : LoaderState) (l : List Char)
    (ha : strstrB l kwArena = false) (hp : strstrB l kwPos = false)
    (hr : strstrB l kwRot = false) (hs : strstrB l kwScl = false)
    (hnm : st.state = 4 → strstrB l kwModel = false) :
    processLine st l = some st := by
  unfold processLine
  by_cases h4 : st.state = 4
  · simp [ha, hp, hr, hs, h4, hnm h4]
  · simp [ha, hp, hr, hs, h4]

/-- A line with no `arena` substring never changes the `state` variable
(whenever the iteration returns at all). -/
theorem processLine_state_of_no_arena (st : LoaderState) (l : List Char)
    (ha : strstrB l kwArena = false) (st2 : LoaderState)
    (h : processLine st l = some st2) : st2.state = st.state := by
  cases hp : strstrB l kwPos with
  | true =>
    rw [processLine_pos_eq st l ha hp] at h
    cases hc : st.current with
    | some i =>
      rw [hc] at h
      obtain rfl := Option.some.inj h
      rfl
    | none =>
      rw [hc] at h
      obtain rfl := Option.some.inj h
      rfl
  | false =>
    cases hr : strstrB l kwRot with
    | true =>
      rw [processLine_rot_eq st l ha hp hr] at h
      cases hc : st.current with
      | some i =>
        rw [hc] at h
        obtain rfl := Option.some.inj h
        rfl
      | none =>
        rw [hc] at h
        obtain rfl := Option.some.inj h
        rfl
    | false =>
      cases hs : strstrB l kwScl with
      | true =>
        rw [processLine_scl_eq st l ha hp hr hs] at h
        cases hc : st.current with
        | some i =>
          rw [hc] at h
          obtain rfl := Option.some.inj h
          rfl
        | none =>
          rw [hc] at h
          obtain rfl := Option.some.inj h
          rfl
      | false =>
        by_cases h4 : st.state = 4
        · cases hm : strstrB l kwModel with
          | true =>
            by_cases hlen : 6 ≤ l.length
            · rw [processLine_model_eq st l ha hp hr hs h4 hm hlen] at h
              obtain rfl := Option.some.inj h
              rfl
            · rw [processLine_model_throw st l ha hp hr hs h4 hm (by omega)] at h
              exact absurd h (by simp)
          | false =>
            rw [processLine_skip_eq st l ha hp hr hs (fun _ => hm)] at h
            obtain rfl := Option.some.inj h
            rfl
        · rw [processLine_skip_eq st l ha hp hr hs (fun hh => absurd hh h4)] at h
          obtain rfl := Option.some.inj h
          rfl

/-- A line with no `model` substring never changes `currentEntity`
(whenever the iteration returns at all, which such a line always does). -/
theorem processLine_current_of_no_model (st : LoaderState) (l : List Char)
    (hm : strstrB l kwModel = false) (st2 : LoaderState)
    (h : processLine st l = some st2) : st2.current = st.current := by
  cases ha : strstrB l kwArena with
  | true =>
    rw [processLine_arena_eq st l ha] at h
    obtain rfl := Option.some.inj h
    rfl
  | false =>
    cases hp : strstrB l kwPos with
    | true =>
      rw [processLine_pos_eq st l ha hp] at h
      cases hc : st.current with
      | some i =>
        rw [hc] at h
        obtain rfl := Option.some.inj h
        rfl
      | none =>
        rw [hc] at h
        obtain rfl := Option.some.inj h
        exact hc
    | false =>
      cases hr : strstrB l kwRot with
      | true =>
        rw [processLine_rot_eq st l ha hp hr] at h
        cases hc : st.current with
        | some i =>
          rw [hc] at h
          obtain rfl := Option.some.inj h
          rfl
        | none =>
          rw [hc] at h
          obtain rfl := Option.some.inj h
          exact hc
      | false =>
        cases hs : strstrB l kwScl with
        | true =>
          rw [processLine_scl_eq st l ha hp hr hs] at h
          cases hc : st.current with
          | some i =>
            rw [hc] at h
            obtain rfl := Option.some.inj h
            rfl
          | none =>
            rw [hc] at h
            obtain rfl := Option.some.inj h
            exact hc
        | false =>
          rw [processLine_skip_eq st l ha hp hr hs (fun _ => hm)] at h
          obtain rfl := Option.some.inj h
          rfl

/-- While the `state` variable is not 4, a processed line never throws
and never adds an entity or a mesh. -/
theorem processLine_no_add_of_state_ne (st : LoaderState) (l : List Char)
    (h4 : st.state ≠ 4) :
    ∃ st2, processLine st l = some st2 ∧
      st2.ents.length = st.ents.length ∧ st2.meshes = st.meshes := by
  cases ha : strstrB l kwArena with
  | true => exact ⟨_, processLine_arena_eq st l ha, rfl, rfl⟩
  | false =>
    cases hp : strstrB l kwPos with
    | true =>
      refine ⟨_, processLine_pos_eq st l ha hp, ?_, ?_⟩ <;>
        cases hc : st.current <;> simp [hc, setTransformAt_length]
    | false =>
      cases hr : strstrB l kwRot with
      | true =>
        refine ⟨_, processLine_rot_eq st l ha hp hr, ?_, ?_⟩ <;>
          cases hc : st.current <;> simp [hc, setTransformAt_length]
      | false =>
        cases hs : strstrB l kwScl with
        | true =>
          refine ⟨_, processLine_scl_eq st l ha hp hr hs, ?_, ?_⟩ <;>
            cases hc : st.current <;> simp [hc, setTransformAt_length]
        | false =>
          exact ⟨st, processLine_skip_eq st l ha hp hr hs (fun hh => absurd hh h4), rfl, rfl⟩

/-- Folding lines with no `arena` substring preserves the `state`
variable whenever the run completes. -/
theorem runLines_state_of_no_arena (ls : List (List Char)) :
    ∀ st st' : LoaderState, (∀ x ∈ ls, strstrB x kwArena = false) →
      runLines st ls = some st' → st'.state = st.state := by
  induction ls with
  | nil =>
    intro st st' _ h
    simp only [runLines] at h
    obtain rfl := Option.some.inj h
    rfl
  | cons l t ih =>
    intro st st' hall hrun
    have h1 : strstrB l kwArena = false := hall l (List.mem_cons_self l t)
    have h2 : ∀ x ∈ t, strstrB x kwArena = false := fun x hx => hall x (List.mem_cons_of_mem l hx)
    cases hp : processLine st l with
    | none => simp [runLines, hp] at hrun
    | some st2 =>
      simp only [runLines, hp] at hrun
      calc st'.state = st2.state := ih st2 st' h2 hrun
        _ = st.state := processLine_state_of_no_arena st l h1 st2 hp

/-- Folding lines with no `model` substring preserves `currentEntity`
whenever the run completes. -/
theorem runLines_current_of_no_model (ls : List (List Char)) :
    ∀ st st' : LoaderState, (∀ x ∈ ls, strstrB x kwModel = false) →
      runLines st ls = some st' → st'.current = st.current := by
  induction ls with
  | nil =>
    intro st st' _ h
    simp only [runLines] at h
    obtain rfl := Option.some.inj h
    rfl
  | cons l t ih =>
    intro st st' hall hrun
    have h1 : strstrB l kwModel = false := hall l (List.mem_cons_self l t)
    have h2 : ∀ x ∈ t, strstrB x kwModel = false := fun x hx => hall x (List.mem_cons_of_mem l hx)
    cases hp : processLine st l with
    | none => simp [runLines, hp] at hrun
    | some st2 =>
      simp only [runLines, hp] at hrun
      calc st'.current = st2.current := ih st2 st' h2 hrun
        _ = st.current := processLine_current_of_no_model st l h1 st2 hp

/-- A world-matrix query walks no more links than the parent chain has,
proved by induction on the chain length. -/
theorem recalcVisits_le_chainLen_aux (n : Nat) :
    ∀ t : Transform, t.chainLen ≤ n → t.recalcVisits ≤ t.chainLen := by
  induction n with
  | zero =>
    intro t h
    cases t with
    | mk p d pos rot scl w =>
      cases p with
      | null => simp [Transform.recalcVisits, PTransform.visitCost]
      | ref t2 =>
        exfalso
        simp [Transform.chainLen, PTransform.chainCost] at h
  | succ n ih =>
    intro t h
    cases t with
    | mk p d pos rot scl w =>
      cases p with
      | null => simp [Transform.recalcVisits, PTransform.visitCost]
      | ref t2 =>
        simp only [Transform.recalcVisits, PTransform.visitCost,
          Transform.chainLen, PTransform.chainCost] at h ⊢
        cases d with
        | false => simp
        | true =>
          simp only [if_true]
          have h2 : t2.chainLen ≤ n := by omega
          have := ih t2 h2
          omega

theorem recalcVisits_le_chainLen (t : Transform) : t.recalcVisits ≤ t.chainLen :=
  recalcVisits_le_chainLen_aux t.chainLen t le_rfl

/-- Effect of a line taken by the `pos` branch on the current entity: the
iteration completes and the entity holds the scanned values, dirty. -/
theorem posBranch_effect (st : LoaderState) (l : List Char) (i : Nat)
    (hcur : st.current = some i) (ha : strstrB l kwArena = false)
    (hp : strstrB l kwPos = true) :
    ∃ st2, processLine st l = some st2 ∧
      (st2.ents.get? i).map (fun e => (e.transform.position, e.transform.isDirty))
        = (st.ents.get? i).map (fun _ => (scanfKw3 kwPos l, true)) := by
  have hstep : processLine st l
      = some { st with ents := setTransformAt st.ents i (fun t => t.setPosition (scanfKw3 kwPos l)) } := by
    rw [processLine_pos_eq st l ha hp, hcur]
  refine ⟨_, hstep, ?_⟩
  show ((setTransformAt st.ents i (fun t => t.setPosition (scanfKw3 kwPos l))).get? i).map _ = _
  rw [setTransformAt_get]
  cases st.ents.get? i with
  | none => rfl
  | some e =>
    simp [Transform.position_setPosition, Transform.isDirty_setPosition]

/-- Effect of a line taken by the `rot` branch on the current entity. -/
theorem rotBranch_effect (st : LoaderState) (l : List Char) (i : Nat)
    (hcur : st.current = some i) (ha : strstrB l kwArena = false)
    (hp : strstrB l kwPos = false) (hr : strstrB l kwRot = true) :
    ∃ st2, processLine st l = some st2 ∧
      (st2.ents.get? i).map (fun e => (e.transform.rotation, e.transform.isDirty))
        = (st.ents.get? i).map (fun _ => (scanfKw3 kwRot l, true)) := by
  have hstep : processLine st l
      = some { st with ents := setTransformAt st.ents i (fun t => t.setRotation (scanfKw3 kwRot l)) } := by
    rw [processLine_rot_eq st l ha hp hr, hcur]
  refine ⟨_, hstep, ?_⟩
  show ((setTransformAt st.ents i (fun t => t.setRotation (scanfKw3 kwRot l))).get? i).map _ = _
  rw [setTransformAt_get]
  cases st.ents.get? i with
  | none => rfl
  | some e =>
    simp [Transform.rotation_setRotation, Transform.isDirty_setRotation]

/-- Effect of a line taken by the `scl` branch on the current entity. -/
theorem sclBranch_effect (st : LoaderState) (l : List Char) (i : Nat)
    (hcur : st.current = some i) (ha : strstrB l kwArena = false)
    (hp : strstrB l kwPos = false) (hr : strstrB l kwRot = false)
    (hs : strstrB l kwScl = true) :
    ∃ st2, processLine st l = some st2 ∧
      (st2.ents.get? i).map (fun e => (e.transform.scale, e.transform.isDirty))
        = (st.ents.get? i).map (fun _ => (scanfKw3 kwScl l, true)) := by
  have hstep : processLine st l
      = some { st with ents := setTransformAt st.ents i (fun t => t.setScale (scanfKw3 kwScl l)) } := by
    rw [processLine_scl_eq st l ha hp hr hs, hcur]
  refine ⟨_, hstep, ?_⟩
  show ((setTransformAt st.ents i (fun t => t.setScale (scanfKw3 kwScl l))).get? i).map _ = _
  rw [setTransformAt_get]
  cases st.ents.get? i with
  | none => rfl
  | some e =>
    simp [Transform.scale_setScale, Transform.isDirty_setScale]

/-! ### Claims -/

/-- C2: `Component::SetEntiy` sets the entity back-reference exactly once:
on a component whose back-reference is still null, a call with a (non-null)
entity pointer stores it, and every later call leaves the stored pointer
unchanged (a no-op); more generally any call on a component whose pointer
is already non-null changes nothing. -/
theorem C2_setEntiy_once (c : Component) (x : Nat) (e2 : Option Nat)
    (h : c.parrentEntity = none) :
    (c.setEntiy (some x)).parrentEntity = some x ∧
      (c.setEntiy (some x)).setEntiy e2 = c.setEntiy (some x) ∧
      (∀ d : Component, d.parrentEntity ≠ none → d.setEntiy e2 = d) := by
  refine ⟨?_, ?_, ?_⟩
  · simp [Component.setEntiy, h]
  · simp [Component.setEntiy, h]
  · intro d hd
    simp [Component.setEntiy, hd]

/-- Witness for C2 on a freshly constructed component. -/
theorem C2_setEntiy_once_witness :
    (Component.init.setEntiy (some 0)).parrentEntity = some 0 ∧
      (Component.init.setEntiy (some 0)).setEntiy (some 1) = Component.init.setEntiy (some 0) :=
  ⟨(C2_setEntiy_once Component.init 0 (some 1) rfl).1,
   (C2_setEntiy_once Component.init 0 (some 1) rfl).2.1⟩

/-- C8: the lifecycle hooks `Added`, `Removed` and `Update` on the base
`Component` are no-ops: each leaves the whole component state (entity
back-reference and index) unchanged. -/
theorem C8_lifecycle_noops (c : Component) :
    c.added = c ∧ c.removed = c ∧ c.update = c :=
  ⟨rfl, rfl, rfl⟩

/-- C4: when the level file cannot be opened, `TestLoadLevel` returns at
once and the entity list, the mesh list (and hence every transform stored
in them) are exactly as before the call. -/
theorem C4_open_failure_no_change (ents0 : List Entity) (meshes0 : List (List Char)) :
    testLoadLevel none ents0 meshes0 = some (ents0, meshes0) := rfl

/-- C3: every `Transform` setter (position, rotation, scale, parent) raises
the dirty flag; a world-matrix query on a clean transform returns the
cached matrix and changes nothing; and a query walks the parent chain at
most once (no more links than the chain has). -/
theorem C3_transform_dirty_cache :
    (∀ (t : Transform) (v : F3),
      (t.setPosition v).isDirty = true ∧ (t.setRotation v).isDirty = true ∧
        (t.setScale v).isDirty = true) ∧
    (∀ (t : Transform) (p : PTransform), (t.setParrent p).isDirty = true) ∧
    (∀ t : Transform, t.isDirty = false → t.recalcWM = (t.worldMatrix, t)) ∧
    (∀ t : Transform, t.recalcVisits ≤ t.chainLen) := by
  refine ⟨?_, ?_, ?_, ?_⟩
  · intro t v
    exact ⟨Transform.isDirty_setPosition t v, Transform.isDirty_setRotation t v,
      Transform.isDirty_setScale t v⟩
  · exact Transform.isDirty_setParrent
  · intro t h
    cases t with
    | mk p d pos rot scl w =>
      simp only [Transform.isDirty] at h
      subst h
      simp [Transform.recalcWM, Transform.worldMatrix]
  · exact recalcVisits_le_chainLen

/-- Witness for C3: a clean one-link transform answers from its cache and
walks no links. -/
theorem C3_transform_dirty_cache_witness :
    (Transform.mk (.ref Transform.init) false ⟨none, none, none⟩ ⟨none, none, none⟩
        ⟨none, none, none⟩ []).recalcWM
      = ([], Transform.mk (.ref Transform.init) false ⟨none, none, none⟩ ⟨none, none, none⟩
          ⟨none, none, none⟩ []) ∧
    (Transform.init.setPosition ⟨some ['1'], none, none⟩).isDirty = true := by
  constructor
  · exact C3_transform_dirty_cache.2.2.1 _ rfl
  · exact (C3_transform_dirty_cache.1 Transform.init ⟨some ['1'], none, none⟩).1

/-- C5: a line in which none of the five directive keywords occurs (so the
line matches no directive in the code) is silently ignored: the iteration
completes normally with the loader state — entity list, mesh list, the
`state` variable and the current entity — exactly what it was, and the
embedding has no error channel to report into, mirroring the void
return. -/
theorem C5_unrecognized_line_ignored (st : LoaderState) (l : List Char)
    (ha : strstrB l kwArena = false) (hp : strstrB l kwPos = false)
    (hr : strstrB l kwRot = false) (hs : strstrB l kwScl = false)
    (hm : strstrB l kwModel = false) :
    processLine st l = some st :=
  processLine_skip_eq st l ha hp hr hs (fun _ => hm)

/-- Witness for C5 on the line `hello world`. -/
theorem C5_unrecognized_line_ignored_witness :
    processLine ⟨[], [], 0, none⟩ ("hello world").data = some ⟨[], [], 0, none⟩ :=
  C5_unrecognized_line_ignored ⟨[], [], 0, none⟩ ("hello world").data
    (by decide) (by decide) (by decide) (by decide) (by decide)

/-- C10: a `pos`, `rot` or `scl` line reached while `currentEntity` is
null is skipped entirely: the null check keeps the setter from running,
the iteration completes with the loader state unchanged, and the fold
simply continues with the next line. -/
theorem C10_null_current_skips_setters (st : LoaderState) (l : List Char)
    (hcur : st.current = none) (ha : strstrB l kwArena = false)
    (h : strstrB l kwPos = true ∨ strstrB l kwRot = true ∨ strstrB l kwScl = true) :
    processLine st l = some st := by
  cases hp : strstrB l kwPos with
  | true =>
    rw [processLine_pos_eq st l ha hp, hcur]
  | false =>
    cases hr : strstrB l kwRot with
    | true =>
      rw [processLine_rot_eq st l ha hp hr, hcur]
    | false =>
      cases hs : strstrB l kwScl with
      | true =>
        rw [processLine_scl_eq st l ha hp hr hs, hcur]
      | false =>
        rcases h with h | h | h
        · rw [h] at hp; exact absurd hp (by simp)
        · rw [h] at hr; exact absurd hr (by simp)
        · rw [h] at hs; exact absurd hs (by simp)

/-- Witness for C10 on the line `pos 1 2 3` with no current entity. -/
theorem C10_null_current_skips_setters_witness :
    processLine ⟨[], [], 4, none⟩ ("pos 1 2 3").data = some ⟨[], [], 4, none⟩ :=
  C10_null_current_skips_setters ⟨[], [], 4, none⟩ ("pos 1 2 3").data rfl
    (by decide) (Or.inl (by decide))

/-- C7: on a `pos`, `rot` or `scl` line the scan result is never checked:
whenever a current entity exists, the iteration completes and the matching
setter is called with exactly the values the scan left behind — `none`
(uninitialized) for every field whose conversion failed — and the dirty
flag is raised, for malformed lines just as for well-formed ones (no
hypothesis below constrains the numeric fields). -/
theorem C7_scan_result_unchecked (st : LoaderState) (l : List Char) (i : Nat)
    (hcur : st.current = some i) (ha : strstrB l kwArena = false) :
    (strstrB l kwPos = true →
      ∃ st2, processLine st l = some st2 ∧
        (st2.ents.get? i).map (fun e => (e.transform.position, e.transform.isDirty))
          = (st.ents.get? i).map (fun _ => (scanfKw3 kwPos l, true))) ∧
    (strstrB l kwPos = false → strstrB l kwRot = true →
      ∃ st2, processLine st l = some st2 ∧
        (st2.ents.get? i).map (fun e => (e.transform.rotation, e.transform.isDirty))
          = (st.ents.get? i).map (fun _ => (scanfKw3 kwRot l, true))) ∧
    (strstrB l kwPos = false → strstrB l kwRot = false → strstrB l kwScl = true →
      ∃ st2, processLine st l = some st2 ∧
        (st2.ents.get? i).map (fun e => (e.transform.scale, e.transform.isDirty))
          = (st.ents.get? i).map (fun _ => (scanfKw3 kwScl l, true))) :=
  ⟨fun hp => posBranch_effect st l i hcur ha hp,
   fun hp hr => rotBranch_effect st l i hcur ha hp hr,
   fun hp hr hs => sclBranch_effect st l i hcur ha hp hr hs⟩

/-- Witness for C7 on the malformed line `pos a b c`: the setter runs and
stores three uninitialized fields. -/
theorem C7_scan_result_unchecked_witness :
    ((processLine ⟨[⟨Transform.init, []⟩], [], 4, some 0⟩ ("pos a b c").data).bind
        (fun s => s.ents.get? 0)).map
        (fun e => (e.transform.position, e.transform.isDirty))
      = some (⟨none, none, none⟩, true) := by
  obtain ⟨st2, hstep, hmap⟩ := (C7_scan_result_unchecked ⟨[⟨Transform.init, []⟩], [], 4, some 0⟩
    ("pos a b c").data 0 rfl (by decide)).1 (by decide)
  rw [hstep]
  exact hmap.trans rfl

/-- C9: a `model` line creates an entity only in loader state 4, which is
entered only by an `arena` line: starting from the loader's initial state,
after any completed run of lines none of which contains `arena`,
processing a line containing `model` does not throw, adds no entity and
adds no mesh. -/
theorem C9_model_needs_arena (ents0 : List Entity) (meshes0 : List (List Char))
    (pre : List (List Char)) (l : List Char)
    (hpre : ∀ x ∈ pre, strstrB x kwArena = false)
    (hm : strstrB l kwModel = true) :
    ∀ st1, runLines ⟨ents0, meshes0, 0, none⟩ pre = some st1 →
      ∃ st2, processLine st1 l = some st2 ∧
        st2.ents.length = st1.ents.length ∧ st2.meshes = st1.meshes := by
  intro st1 hrun
  have hstate : st1.state = 0 :=
    runLines_state_of_no_arena pre ⟨ents0, meshes0, 0, none⟩ st1 hpre hrun
  exact processLine_no_add_of_state_ne st1 l (by rw [hstate]; decide)

/-- Witness for C9: with no `arena` line seen, `model cube` adds nothing. -/
theorem C9_model_needs_arena_witness :
    ∃ st2, processLine ⟨[], [], 0, none⟩ ("model cube").data = some st2 ∧
      st2.ents.length = 0 ∧ st2.meshes = [] := by
  have h := C9_model_needs_arena [] [] [("pos 1 2 3").data] ("model cube").data
    (by intro x hx; simp at hx; subst hx; decide) (by decide)
    ⟨[], [], 0, none⟩ rfl
  simpa using h

/-- C6 counterexample: recognition is not token-based.  The line `compost
1 2 3`, whose first whitespace-separated token is `compost` and not `pos`,
is nevertheless treated as a `pos` directive: with a current entity whose
position held parsed values, the line runs `SetPosition` (the literal
`pos` of the scan fails against `com...`, so all three stored fields are
the uninitialized `none`) and raises the dirty flag. -/
theorem C6_first_token_counterexample :
    specFirstToken ("compost 1 2 3").data ≠ kwPos ∧
      ((processLine
          ⟨[⟨Transform.mk .null false ⟨some ['5'], some ['5'], some ['5']⟩
              ⟨none, none, none⟩ ⟨none, none, none⟩ [], []⟩], [], 0, some 0⟩
          ("compost 1 2 3").data).bind (fun s => s.ents.get? 0)).map
          (fun e => (e.transform.position, e.transform.isDirty))
        = some (⟨none, none, none⟩, true) :=
  ⟨by decide, rfl⟩

/-- C6 amended: directive recognition in `TestLoadLevel` is line-oriented
but substring-based, not token-based: a line is treated as an `arena`,
`pos`, `rot` or `scl` directive exactly when the keyword occurs anywhere
in the line, earlier keyword in that order winning, and as a `model`
directive exactly when none of those four occurs, the loader state is 4,
and `model` occurs anywhere in the line — where a `model` line of fewer
than 6 characters (the bare keyword) makes the `substr` call throw
`std::out_of_range` and the program terminate; any other line is not a
directive and leaves the state untouched. -/
theorem C6_recognition_amended (st : LoaderState) (l : List Char) :
    (strstrB l kwArena = true → processLine st l = some { st with state := 4 }) ∧
    (strstrB l kwArena = false → strstrB l kwPos = true →
      processLine st l = some (match st.current with
        | some i =>
          { st with ents := setTransformAt st.ents i (fun t => t.setPosition (scanfKw3 kwPos l)) }
        | none => st)) ∧
    (strstrB l kwArena = false → strstrB l kwPos = false → strstrB l kwRot = true →
      processLine st l = some (match st.current with
        | some i =>
          { st with ents := setTransformAt st.ents i (fun t => t.setRotation (scanfKw3 kwRot l)) }
        | none => st)) ∧
    (strstrB l kwArena = false → strstrB l kwPos = false → strstrB l kwRot = false →
      strstrB l kwScl = true →
      processLine st l = some (match st.current with
        | some i =>
          { st with ents := setTransformAt st.ents i (fun t => t.setScale (scanfKw3 kwScl l)) }
        | none => st)) ∧
    (strstrB l kwArena = false → strstrB l kwPos = false → strstrB l kwRot = false →
      strstrB l kwScl = false → st.state = 4 → strstrB l kwModel = true → 6 ≤ l.length →
      processLine st l
        = some { st with ents := st.ents ++ [Entity.freshWithMesh st.meshes.length],
                         meshes := st.meshes ++ [mkModelPath l],
                         current := some st.ents.length }) ∧
    (strstrB l kwArena = false → strstrB l kwPos = false → strstrB l kwRot = false →
      strstrB l kwScl = false → st.state = 4 → strstrB l kwModel = true → l.length < 6 →
      processLine st l = none) ∧
    (strstrB l kwArena = false → strstrB l kwPos = false → strstrB l kwRot = false →
      strstrB l kwScl = false → (st.state = 4 → strstrB l kwModel = false) →
      processLine st l = some st) :=
  ⟨fun ha => processLine_arena_eq st l ha,
   fun ha hp => processLine_pos_eq st l ha hp,
   fun ha hp hr => processLine_rot_eq st l ha hp hr,
   fun ha hp hr hs => processLine_scl_eq st l ha hp hr hs,
   fun ha hp hr hs h4 hm hlen => processLine_model_eq st l ha hp hr hs h4 hm hlen,
   fun ha hp hr hs h4 hm hshort => processLine_model_throw st l ha hp hr hs h4 hm hshort,
   fun ha hp hr hs hnm => processLine_skip_eq st l ha hp hr hs hnm⟩

/-- Witness for C6 amended: an `arena` line switches the state to 4; the
substring-matched line `compost` takes the `pos` branch; the bare line
`model` in state 4 throws. -/
theorem C6_recognition_amended_witness :
    processLine ⟨[], [], 0, none⟩ ("arena").data = some ⟨[], [], 4, none⟩ ∧
      processLine ⟨[], [], 0, none⟩ ("compost").data = some ⟨[], [], 0, none⟩ ∧
      processLine ⟨[], [], 4, none⟩ ("model").data = none := by
  refine ⟨?_, ?_, ?_⟩
  · exact (C6_recognition_amended ⟨[], [], 0, none⟩ ("arena").data).1 (by decide)
  · exact (C6_recognition_amended ⟨[], [], 0, none⟩ ("compost").data).2.1 (by decide) (by decide)
  · exact (C6_recognition_amended ⟨[], [], 4, none⟩ ("model").data).2.2.2.2.2.1
      (by decide) (by decide) (by decide) (by decide) rfl (by decide) (by decide)

/-- C1 counterexample: a `model` line does not create an entity when no
`arena` line has come first: loading a file consisting of the single line
`model cube` from empty member vectors completes and leaves both vectors
empty, while the claim as stated requires a new entity with a drawn-mesh
component. -/
theorem C1_model_line_counterexample :
    testLoadLevel (some [("model cube").data]) [] [] = some ([], []) := rfl

/-- C1 amended: once the loader state is 4 (an `arena` line has been
seen), a line at least 6 characters long in which `model` occurs and none
of `arena`, `pos`, `rot`, `scl` occurs appends a new entity carrying a
drawn-mesh component and makes it the current entity, replacing the
previous one (on a shorter `model` line — only the bare keyword — the
`substr` call instead throws and the program terminates, creating
nothing); afterwards the current entity stays that entity across any
completed run of lines not containing `model`, and any line taken by the
`pos`, `rot` or `scl` branch while it is current applies `SetPosition`,
`SetRotation` or `SetScale` with the scanned values to its transform. -/
theorem C1_model_directive_amended (st : LoaderState) (l : List Char)
    (h4 : st.state = 4)
    (ha : strstrB l kwArena = false) (hp : strstrB l kwPos = false)
    (hr : strstrB l kwRot = false) (hs : strstrB l kwScl = false)
    (hm : strstrB l kwModel = true) (hlen : 6 ≤ l.length) :
    processLine st l
      = some { st with ents := st.ents ++ [Entity.freshWithMesh st.meshes.length],
                       meshes := st.meshes ++ [mkModelPath l],
                       current := some st.ents.length } ∧
    (Entity.freshWithMesh st.meshes.length).components
      = [EComp.drawnMesh st.meshes.length] ∧
    (∀ ls2 st3, (∀ x ∈ ls2, strstrB x kwModel = false) →
      runLines { st with ents := st.ents ++ [Entity.freshWithMesh st.meshes.length],
                         meshes := st.meshes ++ [mkModelPath l],
                         current := some st.ents.length } ls2 = some st3 →
      st3.current = some st.ents.length) ∧
    (∀ st2 l2, st2.current = some st.ents.length → strstrB l2 kwArena = false →
      strstrB l2 kwPos = true →
      ∃ st3, processLine st2 l2 = some st3 ∧
        (st3.ents.get? st.ents.length).map
            (fun e => (e.transform.position, e.transform.isDirty))
          = (st2.ents.get? st.ents.length).map (fun _ => (scanfKw3 kwPos l2, true))) ∧
    (∀ st2 l2, st2.current = some st.ents.length → strstrB l2 kwArena = false →
      strstrB l2 kwPos = false → strstrB l2 kwRot = true →
      ∃ st3, processLine st2 l2 = some st3 ∧
        (st3.ents.get? st.ents.length).map
            (fun e => (e.transform.rotation, e.transform.isDirty))
          = (st2.ents.get? st.ents.length).map (fun _ => (scanfKw3 kwRot l2, true))) ∧
    (∀ st2 l2, st2.current = some st.ents.length → strstrB l2 kwArena = false →
      strstrB l2 kwPos = false → strstrB l2 kwRot = false → strstrB l2 kwScl = true →
      ∃ st3, processLine st2 l2 = some st3 ∧
        (st3.ents.get? st.ents.length).map
            (fun e => (e.transform.scale, e.transform.isDirty))
          = (st2.ents.get? st.ents.length).map (fun _ => (scanfKw3 kwScl l2, true))) := by
  refine ⟨processLine_model_eq st l ha hp hr hs h4 hm hlen, rfl, ?_, ?_, ?_, ?_⟩
  · intro ls2 st3 hall hrun
    exact (runLines_current_of_no_model ls2 _ st3 hall hrun).trans rfl
  · intro st2 l2 hc ha2 hp2
    exact posBranch_effect st2 l2 st.ents.length hc ha2 hp2
  · intro st2 l2 hc ha2 hp2 hr2
    exact rotBranch_effect st2 l2 st.ents.length hc ha2 hp2 hr2
  · intro st2 l2 hc ha2 hp2 hr2 hs2
    exact sclBranch_effect st2 l2 st.ents.length hc ha2 hp2 hr2 hs2

/-- Witness for C1 amended: in state 4, `model cube` creates the drawn-mesh
entity as current, and a following `pos 1 2 3` positions exactly it. -/
theorem C1_model_directive_amended_witness :
    processLine ⟨[], [], 4, none⟩ ("model cube").data
        = some ⟨[Entity.freshWithMesh 0], [mkModelPath ("model cube").data], 4, some 0⟩ ∧
      ((processLine ⟨[Entity.freshWithMesh 0], [mkModelPath ("model cube").data], 4, some 0⟩
          ("pos 1 2 3").data).bind (fun s => s.ents.get? 0)).map
          (fun e => (e.transform.position, e.transform.isDirty))
        = some (scanfKw3 kwPos ("pos 1 2 3").data, true) := by
  have h := C1_model_directive_amended ⟨[], [], 4, none⟩ ("model cube").data rfl
    (by decide) (by decide) (by decide) (by decide) (by decide) (by decide)
  constructor
  · exact h.1
  · obtain ⟨st3, hstep, hmap⟩ := h.2.2.2.1
      ⟨[Entity.freshWithMesh 0], [mkModelPath ("model cube").data], 4, some 0⟩
      ("pos 1 2 3").data rfl (by decide) (by decide)
    rw [hstep]
    exact hmap.trans rfl

end GGP
